import Mathlib

/-!
Shallow embedding of the on-chain storage decoder of the card-game
frontend.  The decoder derives deterministic storage-slot keys, reads raw
256-bit words through a primary batched "extsload" call with a per-slot
raw-storage fallback, and unpacks bit-packed fields into typed records.

Modelling conventions: JavaScript `bigint` values are `Nat`; hex strings
are the numbers they denote; an Ethereum address is its 160-bit numeric
value (the checksummed-hex formatting done by `getAddress` is dropped);
a possibly-absent storage value is `Option Nat`; a promise that can
reject is `Except Unit`.  The keccak-256 hash is an external collaborator
and is therefore a parameter (`List Nat → Nat` over byte lists).  The
asynchronous readers additionally return the list of slot lists passed to
the raw-storage fallback, making "the fallback was invoked exactly once
with these slots" an observable fact of the embedding.
-/

namespace CardView

/-- Declared base slot of the per-game record mapping. -/
def GAME_DATA_SLOT : Nat := 2

/-- Fixed slot of the next-game-id counter. -/
def GAME_ID_SLOT : Nat := 1

/-- Word offset of the player array inside a game record. -/
def PLAYER_DATA_OFFSET : Nat := 4

/-- Declared base slot of the commitment mapping. -/
def COMMITMENT_SLOT : Nat := 0

def ADDRESS_MASK : Nat := (1 <<< 160) - 1

def U64_MASK : Nat := (1 <<< 64) - 1

def U40_MASK : Nat := (1 <<< 40) - 1

def U16_MASK : Nat := (1 <<< 16) - 1

def U8_MASK : Nat := (1 <<< 8) - 1

/-- Field extraction: shift right then mask. -/
def loadBits (value offset mask : Nat) : Nat := (value >>> offset) &&& mask

/-- The source formats the 160-bit value as a checksummed hex address; the
numeric content is the value itself. -/
def toAddress (value : Nat) : Nat := value

/-- Absent or empty hex values decode to zero. -/
def hexToBigIntSafe : Option Nat → Nat
  | none => 0
  | some v => v

/-- The bit-counting loop of `countPlayersFromStore`: while raw > 0,
add the low bit and shift right. -/
def countBitsAux (raw : Nat) : Nat :=
  if h : raw = 0 then 0 else raw % 2 + countBitsAux (raw / 2)
termination_by raw
decreasing_by
  exact Nat.div_lt_self (Nat.pos_of_ne_zero h) one_lt_two

/-- Players joined: population count of the seat-occupancy map after
dropping the sentinel bit 0. -/
def countPlayersFromStore (playerStoreMap : Nat) : Nat :=
  countBitsAux (playerStoreMap >>> 1)

structure GameDataView where
  gameCreator : Nat
  callCard : Nat
  playerTurnIdx : Nat
  status : Nat
  lastMoveTimestamp : Nat
  numProposedPlayers : Nat
  hookPermissions : Nat
  playerStoreMap : Nat
  playersJoined : Nat
  playersLeftToJoin : Nat
  maxPlayers : Nat
  ruleset : Nat
  marketDeckMap : Nat
  initialHandSize : Nat
deriving Repr, DecidableEq

structure PlayerDataView where
  playerAddr : Nat
  deckMap : Nat
  pendingAction : Nat
  score : Nat
  forfeited : Bool
  hand0 : Nat
  hand1 : Nat
deriving Repr, DecidableEq

/-- Unpack the two raw words of a game record. -/
def decodeGameData (raw0 raw1 : Nat) : GameDataView :=
  let gameCreator := toAddress (loadBits raw0 0 ADDRESS_MASK)
  let callCard := loadBits raw0 160 U8_MASK
  let playerTurnIdx := loadBits raw0 168 U8_MASK
  let status := loadBits raw0 176 U8_MASK
  let lastMoveTimestamp := loadBits raw0 184 U40_MASK
  let numProposedPlayers := loadBits raw0 224 U8_MASK
  let hookPermissions := loadBits raw0 232 U8_MASK
  let playerStoreMap := loadBits raw0 240 U16_MASK
  let ruleset := toAddress (loadBits raw1 0 ADDRESS_MASK)
  let marketDeckMap := loadBits raw1 160 U64_MASK
  let initialHandSize := loadBits raw1 224 U8_MASK
  let playersLeftToJoin := loadBits raw1 232 U8_MASK
  let playersJoined := countPlayersFromStore playerStoreMap
  let maxPlayers := playersJoined + playersLeftToJoin
  { gameCreator := gameCreator
    callCard := callCard
    playerTurnIdx := playerTurnIdx
    status := status
    lastMoveTimestamp := lastMoveTimestamp
    numProposedPlayers := numProposedPlayers
    hookPermissions := hookPermissions
    playerStoreMap := playerStoreMap
    playersJoined := playersJoined
    playersLeftToJoin := playersLeftToJoin
    maxPlayers := maxPlayers
    ruleset := ruleset
    marketDeckMap := marketDeckMap
    initialHandSize := initialHandSize }

/-- Unpack the three raw words of a player record. -/
def decodePlayerData (raw0 raw1 raw2 : Nat) : PlayerDataView :=
  { playerAddr := toAddress (loadBits raw0 0 ADDRESS_MASK)
    deckMap := loadBits raw0 160 U64_MASK
    pendingAction := loadBits raw0 224 U8_MASK
    score := loadBits raw0 232 U16_MASK
    forfeited := loadBits raw0 248 U8_MASK != 0
    hand0 := raw1
    hand1 := raw2 }

/-- The fixed 54-entry reference deck ordering. -/
def WHOT_DECK : List Nat :=
  [1, 2, 3, 4, 5, 7, 8, 10, 11, 12, 13, 14, 65, 66, 67, 68, 69, 71, 72, 74, 75, 76, 77,
   78, 33, 34, 35, 37, 39, 42, 43, 45, 46, 97, 98, 99, 101, 103, 106, 107, 109, 110, 129,
   130, 131, 132, 133, 135, 136, 180, 180, 180, 180, 180]

def CARD_SHAPES : List String :=
  ["Circle", "Triangle", "Cross", "Square", "Star", "Whot"]

def cardShape (card : Nat) : String :=
  CARD_SHAPES.getD ((card >>> 5) &&& 7) "Circle"

def cardNumber (card : Nat) : Nat := card &&& 31

def describeCard (card : Nat) : String :=
  if card = 0 then "Face down"
  else if cardShape card = "Whot" then "Whot-" ++ toString (cardNumber card)
  else cardShape card ++ " " ++ toString (cardNumber card)

structure OwnedCard where
  index : Nat
  shape : String
  number : Nat
  value : Nat
  label : String
deriving Repr, DecidableEq

structure DeckMapShape where
  raw : Nat
  cardBitSize : Nat
  mapBits : Nat
deriving Repr, DecidableEq

/-- Split a raw deck map into the 2-bit width selector and the presence
bitmask. -/
def decodeDeckMap (deckMap : Nat) : DeckMapShape :=
  { raw := deckMap
    mapBits := deckMap >>> 2
    cardBitSize := 8 - (deckMap &&& 3) }

/-- The set-bit walk of `deckMapToIndexes`: while the cursor is non-zero
and the position is below `maxCards`, record positions whose low bit is
set. -/
def deckMapToIndexesAux (cursor i maxCards : Nat) : List Nat :=
  if cursor = 0 ∨ maxCards ≤ i then []
  else
    (if cursor % 2 = 1 then [i] else []) ++
      deckMapToIndexesAux (cursor / 2) (i + 1) maxCards
termination_by maxCards - i
decreasing_by
  omega

/-- Ordered list of set-bit positions of the deck map presence mask.
The source defaults `maxCards` to 64; callers here pass it explicitly. -/
def deckMapToIndexes (deckMap maxCards : Nat) : List Nat :=
  deckMapToIndexesAux (decodeDeckMap deckMap).mapBits 0 maxCards

def countDeckCards (deckMap : Nat) : Nat := (deckMapToIndexes deckMap 64).length

def ownedCardsFromMap (deckMap : Nat) (deck : List Nat) : List OwnedCard :=
  (deckMapToIndexes deckMap deck.length).map (fun idx =>
    let value := deck.getD idx 0
    { index := idx
      value := value
      shape := cardShape value
      number := cardNumber value
      label := describeCard value })

/-- Decode the clear hand words: walk the deck-map index set and pull a
`cardBitSize`-wide field per index, from `hand0` for the first
`256 / cardBitSize` indices and from `hand1` for the rest. -/
def decodeHandCards (deckMap hand0 hand1 : Nat) : List OwnedCard :=
  let shape := decodeDeckMap deckMap
  let indexes := deckMapToIndexes deckMap 64
  if shape.cardBitSize = 0 ∨ 32 < shape.cardBitSize then []
  else
    let cardsPerWord := 256 / shape.cardBitSize
    if cardsPerWord = 0 then []
    else
      let mask := (1 <<< shape.cardBitSize) - 1
      indexes.map (fun idx =>
        let limb := if idx < cardsPerWord then hand0 else hand1
        let offset := (idx % cardsPerWord) * shape.cardBitSize
        let raw := (limb >>> offset) &&& mask
        { index := idx
          value := raw
          shape := cardShape raw
          number := cardNumber raw
          label := describeCard raw })

def marketSize (deckMap : Nat) : Nat := (deckMapToIndexes deckMap 64).length

/-- Big-endian 32-byte representation of a 256-bit word. -/
def beBytes32 (n : Nat) : List Nat :=
  (List.range 32).map (fun i => n / 2 ^ (8 * (31 - i)) % 256)

/-- ABI encoding of a pair of uint256 parameters (viem
`encodeAbiParameters`): the concatenation of the 32-byte big-endian
words. -/
def encodeAbiUint256Pair (x y : Nat) : List Nat := beBytes32 x ++ beBytes32 y

/-- ABI encoding of a single uint256 parameter. -/
def encodeAbiUint256 (x : Nat) : List Nat := beBytes32 x

/-- Base slot of a game record: keccak of the ABI-encoded pair
(gameId, GAME_DATA_SLOT).  The keccak-256 hash is an external
collaborator, passed as a function from byte lists to 256-bit words. -/
def gameDataSlot (keccak : List Nat → Nat) (gameId : Nat) : Nat :=
  keccak (encodeAbiUint256Pair gameId GAME_DATA_SLOT)

/-- Base slot of the commitment word of a game. -/
def commitmentSlot (keccak : List Nat → Nat) (gameId : Nat) : Nat :=
  keccak (encodeAbiUint256Pair gameId COMMITMENT_SLOT)

/-- Base slot of one player record: hash the game slot offset by the
player-array position, then stride three words per player. -/
def playerDataSlot (keccak : List Nat → Nat) (gameId playerIndex : Nat) : Nat :=
  let gameSlot := gameDataSlot keccak gameId
  let baseSlot := gameSlot + PLAYER_DATA_OFFSET
  let baseHash := keccak (encodeAbiUint256 baseSlot)
  baseHash + playerIndex * 3

/-- Restatement of the slot-derivation formula of the spec for comparison:
hash of the ABI-encoded tuple (gameId, declaredGameMappingSlot). -/
def specGameBaseSlot (keccak : List Nat → Nat) (gameId : Nat) : Nat :=
  keccak (beBytes32 gameId ++ beBytes32 2)

/-- Restatement of the player-slot formula of the spec for comparison:
hash(gameBaseSlot + playerStructOffset) plus playerIndex times the
3-word player record stride. -/
def specPlayerBaseSlot (keccak : List Nat → Nat) (gameId playerIndex : Nat) : Nat :=
  keccak (beBytes32 (specGameBaseSlot keccak gameId + 4)) + playerIndex * 3

/-- Argument forms accepted by the extsload accessor: a contiguous
(startSlot, count) range or an explicit slot list. -/
inductive ExtsloadArgs where
  | range : Nat → Nat → ExtsloadArgs
  | list : List Nat → ExtsloadArgs
deriving Repr, DecidableEq

/-- The read capabilities of the environment: the balanced-pool and the
direct client variants of the batched contract accessor and of the raw
per-slot storage read.  Each call either yields a value or rejects. -/
structure RpcClient where
  readContractBalanced : ExtsloadArgs → Except Unit (List Nat)
  clientReadContract : ExtsloadArgs → Except Unit (List Nat)
  getStorageAtBalanced : Nat → Except Unit (Option Nat)
  clientGetStorageAt : Nat → Except Unit (Option Nat)

/-- Batched extsload read: try the balanced pool, on rejection fall back
to the direct client. -/
def readExtsload (c : RpcClient) (args : ExtsloadArgs) : Except Unit (List Nat) :=
  match c.readContractBalanced args with
  | .ok v => .ok v
  | .error _ => c.clientReadContract args

/-- Raw per-slot storage reads: fan out over the slots on the balanced
pool; if any rejects, retry the whole list on the direct client; absent
values decode to zero. -/
def readStorageSlots (c : RpcClient) (slots : List Nat) : Except Unit (List Nat) :=
  match slots.mapM c.getStorageAtBalanced with
  | .ok values => .ok (values.map hexToBigIntSafe)
  | .error _ =>
    match slots.mapM c.clientGetStorageAt with
    | .ok values => .ok (values.map hexToBigIntSafe)
    | .error e => .error e

/-- Read one game record: primary contiguous extsload of two words from
the game slot, fallback to raw reads of the same two slots.  The second
component is the list of slot lists handed to the raw-storage fallback. -/
def readGameData (c : RpcClient) (keccak : List Nat → Nat) (gameId : Nat) :
    Except Unit GameDataView × List (List Nat) :=
  let slot := gameDataSlot keccak gameId
  match readExtsload c (.range slot 2) with
  | .ok values => (.ok (decodeGameData (values.getD 0 0) (values.getD 1 0)), [])
  | .error _ =>
    (match readStorageSlots c [slot, slot + 1] with
     | .ok values => .ok (decodeGameData (values.getD 0 0) (values.getD 1 0))
     | .error e => .error e,
     [[slot, slot + 1]])

/-- Read one commitment word, with the same primary/fallback shape. -/
def readCommitmentHash (c : RpcClient) (keccak : List Nat → Nat) (gameId : Nat) :
    Except Unit Nat × List (List Nat) :=
  let slot := commitmentSlot keccak gameId
  match readExtsload c (.range slot 1) with
  | .ok values => (.ok (values.getD 0 0), [])
  | .error _ =>
    (match readStorageSlots c [slot] with
     | .ok values => .ok (values.getD 0 0)
     | .error e => .error e,
     [[slot]])

/-- Read the next-game-id counter from its fixed slot. -/
def readNextGameId (c : RpcClient) :
    Except Unit Nat × List (List Nat) :=
  match readExtsload c (.range GAME_ID_SLOT 1) with
  | .ok values => (.ok (values.getD 0 0), [])
  | .error _ =>
    (match readStorageSlots c [GAME_ID_SLOT] with
     | .ok values => .ok (values.getD 0 0)
     | .error e => .error e,
     [[GAME_ID_SLOT]])

/-- Read one player record: three contiguous words. -/
def readPlayerData (c : RpcClient) (keccak : List Nat → Nat)
    (gameId playerIndex : Nat) :
    Except Unit PlayerDataView × List (List Nat) :=
  let slot := playerDataSlot keccak gameId playerIndex
  match readExtsload c (.range slot 3) with
  | .ok values =>
    (.ok (decodePlayerData (values.getD 0 0) (values.getD 1 0) (values.getD 2 0)), [])
  | .error _ =>
    (match readStorageSlots c [slot, slot + 1, slot + 2] with
     | .ok values =>
       .ok (decodePlayerData (values.getD 0 0) (values.getD 1 0) (values.getD 2 0))
     | .error e => .error e,
     [[slot, slot + 1, slot + 2]])

/-- First-occurrence deduplication, matching the iteration order of a
JavaScript Set built from the list. -/
def firstDedup : List Nat → List Nat
  | [] => []
  | a :: l => a :: firstDedup (l.filter (fun b => b ≠ a))
termination_by l => l.length
decreasing_by
  exact Nat.lt_succ_of_le (List.length_filter_le _ _)

/-- Split a list into consecutive chunks of size `n`.  The source loop
never terminates for a zero batch size; that degenerate case is mapped
to the empty chunk list and excluded by the theorems. -/
def chunksOf (n : Nat) (l : List Nat) : List (List Nat) :=
  if n = 0 ∨ l = [] then []
  else l.take n :: chunksOf n (l.drop n)
termination_by l.length
decreasing_by
  rename_i h
  push_neg at h
  have hl : 0 < l.length := List.length_pos.mpr h.2
  simp only [List.length_drop]
  omega

/-- The two storage slots of every game in a chunk, in chunk order. -/
def chunkSlots (keccak : List Nat → Nat) (slice : List Nat) : List Nat :=
  slice.flatMap (fun id => [gameDataSlot keccak id, gameDataSlot keccak id + 1])

/-- Pair each chunk id with the record decoded from its two positional
words, mirroring the loop that reads values[2j] and values[2j+1] with a
zero default. -/
def assignChunk : List Nat → List Nat → List (Nat × GameDataView)
  | [], _ => []
  | id :: rest, values =>
    (id, decodeGameData (values.getD 0 0) (values.getD 1 0)) ::
      assignChunk rest (values.drop 2)

/-- Process one chunk of the batched game read: primary extsload over
the slot list of the chunk, raw-storage fallback over the same list. -/
def runBatchChunk (c : RpcClient) (keccak : List Nat → Nat) (slice : List Nat) :
    Except Unit (List (Nat × GameDataView)) × List (List Nat) :=
  let slots := chunkSlots keccak slice
  if slots.isEmpty then (.ok [], [])
  else
    match readExtsload c (.list slots) with
    | .ok values => (.ok (assignChunk slice values), [])
    | .error _ =>
      (match readStorageSlots c slots with
       | .ok values => .ok (assignChunk slice values)
       | .error e => .error e,
       [slots])

/-- Sequentially process the chunks, stopping at the first failed chunk
as the rejected promise of the source would. -/
def readGameDataBatchAux (c : RpcClient) (keccak : List Nat → Nat) :
    List (List Nat) → Except Unit (List (Nat × GameDataView)) × List (List Nat)
  | [] => (.ok [], [])
  | chunk :: rest =>
    match runBatchChunk c keccak chunk with
    | (.error e, t) => (.error e, t)
    | (.ok entries, t) =>
      match readGameDataBatchAux c keccak rest with
      | (.error e, t2) => (.error e, t ++ t2)
      | (.ok more, t2) => (.ok (entries ++ more), t ++ t2)

/-- Batched game read: keep the unique positive ids, read them in chunks
of `batchSize`, and assemble the id-to-record association in insertion
order (the Map of the source). -/
def readGameDataBatch (c : RpcClient) (keccak : List Nat → Nat)
    (gameIds : List Nat) (batchSize : Nat) :
    Except Unit (List (Nat × GameDataView)) × List (List Nat) :=
  readGameDataBatchAux c keccak
    (chunksOf batchSize (firstDedup (gameIds.filter (fun id => 0 < id))))

/-- Restatement of the word-0 packing of the spec at the documented offsets:
creator at 0, callCard at 160, currentTurnIndex at 168, status at 176,
lastMoveTimestamp at 184, numProposedPlayers at 224, hookPermissionFlags
at 232, seatOccupancyMap at 240. -/
def packGameWord0 (creator callCard turnIdx status ts num hooks seat : Nat) : Nat :=
  creator + (callCard <<< 160) + (turnIdx <<< 168) + (status <<< 176) +
    (ts <<< 184) + (num <<< 224) + (hooks <<< 232) + (seat <<< 240)

/-- Restatement of the word-1 packing of the spec: rulesetAddress at 0,
marketDeckMap at 160, initialHandSize at 224, playersLeftToJoin at 232. -/
def packGameWord1 (ruleset deckMap handSize leftToJoin : Nat) : Nat :=
  ruleset + (deckMap <<< 160) + (handSize <<< 224) + (leftToJoin <<< 232)

/-- Number of set bits of a 16-bit seat map at positions 1 through 15,
bit 0 excluded, as the spec words it. -/
def seatPopcountSpec (m : Nat) : Nat :=
  ((Finset.range 16).filter (fun i => i ≠ 0 ∧ m.testBit i)).card

/-- The set-bit positions of `n` below `k`, in increasing order. -/
def setBitIndexesBelow (n k : Nat) : List Nat :=
  (List.range k).filter (fun i => n.testBit i)

/-- Restatement of the per-index hand-card extraction of the spec: a
`w`-wide field from word 0 for the first `256 / w` indices and from
word 1 for the rest, at bit offset `(idx mod cardsPerWord) * w`. -/
def specCardAt (w hand0 hand1 idx : Nat) : OwnedCard :=
  let cardsPerWord := 256 / w
  let mask := (1 <<< w) - 1
  let limb := if idx < cardsPerWord then hand0 else hand1
  let raw := (limb >>> ((idx % cardsPerWord) * w)) &&& mask
  { index := idx
    value := raw
    shape := cardShape raw
    number := cardNumber raw
    label := describeCard raw }

/-- A degenerate hash assigning every byte string the slot key 0; used
only to evaluate the readers on concrete inputs. -/
def kZero : List Nat → Nat := fun _ => 0

/-- A read client whose every call rejects. -/
def clientAllFail : RpcClient :=
  { readContractBalanced := fun _ => .error ()
    clientReadContract := fun _ => .error ()
    getStorageAtBalanced := fun _ => .error ()
    clientGetStorageAt := fun _ => .error () }

/-- A read client whose primary extsload path answers with a fixed word
list and whose raw-storage path rejects. -/
def clientPrimaryOk : RpcClient :=
  { readContractBalanced := fun _ => .ok [3, 5, 7]
    clientReadContract := fun _ => .error ()
    getStorageAtBalanced := fun _ => .error ()
    clientGetStorageAt := fun _ => .error () }

/-- A read client whose extsload path rejects while per-slot raw reads
answer with the slot number plus 40. -/
def clientRawOnly : RpcClient :=
  { readContractBalanced := fun _ => .error ()
    clientReadContract := fun _ => .error ()
    getStorageAtBalanced := fun slot => .ok (some (slot + 40))
    clientGetStorageAt := fun _ => .error () }

/-- A read client whose primary extsload path always answers six words
in which only the second game of a three-game chunk has a non-zero
creator word. -/
def clientBatchTwo : RpcClient :=
  { readContractBalanced := fun _ => .ok [0, 0, 1, 0, 0, 0]
    clientReadContract := fun _ => .error ()
    getStorageAtBalanced := fun _ => .error ()
    clientGetStorageAt := fun _ => .error () }

theorem loadBits_shift_mask (v off w : Nat) :
    loadBits v off ((1 <<< w) - 1) = v / 2 ^ off % 2 ^ w := by
  unfold loadBits
  rw [Nat.shiftRight_eq_div_pow, Nat.shiftLeft_eq, one_mul,
    Nat.and_pow_two_sub_one_eq_mod]

theorem extract_at (v x f y lo w : Nat)
    (hv : v = x + 2 ^ lo * f + (2 ^ lo * 2 ^ w) * y)
    (hx : x < 2 ^ lo) (hf : f < 2 ^ w) :
    v / 2 ^ lo % 2 ^ w = f := by
  subst hv
  have hpos : (0 : Nat) < 2 ^ lo := Nat.pos_pow_of_pos lo (by norm_num)
  rw [show x + 2 ^ lo * f + (2 ^ lo * 2 ^ w) * y
      = x + 2 ^ lo * (f + 2 ^ w * y) by ring]
  rw [Nat.add_mul_div_left _ _ hpos, Nat.div_eq_of_lt hx, Nat.zero_add,
    Nat.add_mul_mod_self_left, Nat.mod_eq_of_lt hf]

theorem pack_lt (x1 x2 k1 k2 : Nat) (h1 : x1 < 2 ^ k1) (h2 : x2 < 2 ^ k2) :
    x1 + 2 ^ k1 * x2 < 2 ^ (k1 + k2) := by
  have h3 : x2 + 1 ≤ 2 ^ k2 := h2
  calc x1 + 2 ^ k1 * x2 < 2 ^ k1 + 2 ^ k1 * x2 := by omega
    _ = 2 ^ k1 * (x2 + 1) := by ring
    _ ≤ 2 ^ k1 * 2 ^ k2 := Nat.mul_le_mul_left _ h3
    _ = 2 ^ (k1 + k2) := (pow_add 2 k1 k2).symm

theorem gameCreator_eq (w0 w1 : Nat) :
    (decodeGameData w0 w1).gameCreator = w0 / 2 ^ 0 % 2 ^ 160 :=
  loadBits_shift_mask w0 0 160

theorem callCard_eq (w0 w1 : Nat) :
    (decodeGameData w0 w1).callCard = w0 / 2 ^ 160 % 2 ^ 8 :=
  loadBits_shift_mask w0 160 8

theorem playerTurnIdx_eq (w0 w1 : Nat) :
    (decodeGameData w0 w1).playerTurnIdx = w0 / 2 ^ 168 % 2 ^ 8 :=
  loadBits_shift_mask w0 168 8

theorem status_eq (w0 w1 : Nat) :
    (decodeGameData w0 w1).status = w0 / 2 ^ 176 % 2 ^ 8 :=
  loadBits_shift_mask w0 176 8

theorem lastMoveTimestamp_eq (w0 w1 : Nat) :
    (decodeGameData w0 w1).lastMoveTimestamp = w0 / 2 ^ 184 % 2 ^ 40 :=
  loadBits_shift_mask w0 184 40

theorem numProposedPlayers_eq (w0 w1 : Nat) :
    (decodeGameData w0 w1).numProposedPlayers = w0 / 2 ^ 224 % 2 ^ 8 :=
  loadBits_shift_mask w0 224 8

theorem hookPermissions_eq (w0 w1 : Nat) :
    (decodeGameData w0 w1).hookPermissions = w0 / 2 ^ 232 % 2 ^ 8 :=
  loadBits_shift_mask w0 232 8

theorem playerStoreMap_eq (w0 w1 : Nat) :
    (decodeGameData w0 w1).playerStoreMap = w0 / 2 ^ 240 % 2 ^ 16 :=
  loadBits_shift_mask w0 240 16

theorem ruleset_eq (w0 w1 : Nat) :
    (decodeGameData w0 w1).ruleset = w1 / 2 ^ 0 % 2 ^ 160 :=
  loadBits_shift_mask w1 0 160

theorem marketDeckMap_eq (w0 w1 : Nat) :
    (decodeGameData w0 w1).marketDeckMap = w1 / 2 ^ 160 % 2 ^ 64 :=
  loadBits_shift_mask w1 160 64

theorem initialHandSize_eq (w0 w1 : Nat) :
    (decodeGameData w0 w1).initialHandSize = w1 / 2 ^ 224 % 2 ^ 8 :=
  loadBits_shift_mask w1 224 8

theorem playersLeftToJoin_eq (w0 w1 : Nat) :
    (decodeGameData w0 w1).playersLeftToJoin = w1 / 2 ^ 232 % 2 ^ 8 :=
  loadBits_shift_mask w1 232 8

/-- C2: for every 160-bit creator address and every choice of the other
field values packed into two 256-bit words at their documented bit
offsets, `decodeGameData` recovers each packed field bit-exactly, and
`decodeGameData 0 0` yields an all-zero creator address, status 0,
playersJoined 0 and maxPlayers 0. -/
theorem c2_decode_round_trip
    (a c1 c2 s t p h m r d i l : Nat)
    (ha : a < 2 ^ 160) (hc1 : c1 < 2 ^ 8) (hc2 : c2 < 2 ^ 8) (hs : s < 2 ^ 8)
    (ht : t < 2 ^ 40) (hp : p < 2 ^ 8) (hh : h < 2 ^ 8) (hm : m < 2 ^ 16)
    (hr : r < 2 ^ 160) (hd : d < 2 ^ 64) (hi : i < 2 ^ 8) (hl : l < 2 ^ 8) :
    (decodeGameData (packGameWord0 a c1 c2 s t p h m) (packGameWord1 r d i l)).gameCreator = a ∧
    (decodeGameData (packGameWord0 a c1 c2 s t p h m) (packGameWord1 r d i l)).callCard = c1 ∧
    (decodeGameData (packGameWord0 a c1 c2 s t p h m) (packGameWord1 r d i l)).playerTurnIdx = c2 ∧
    (decodeGameData (packGameWord0 a c1 c2 s t p h m) (packGameWord1 r d i l)).status = s ∧
    (decodeGameData (packGameWord0 a c1 c2 s t p h m) (packGameWord1 r d i l)).lastMoveTimestamp = t ∧
    (decodeGameData (packGameWord0 a c1 c2 s t p h m) (packGameWord1 r d i l)).numProposedPlayers = p ∧
    (decodeGameData (packGameWord0 a c1 c2 s t p h m) (packGameWord1 r d i l)).hookPermissions = h ∧
    (decodeGameData (packGameWord0 a c1 c2 s t p h m) (packGameWord1 r d i l)).playerStoreMap = m ∧
    (decodeGameData (packGameWord0 a c1 c2 s t p h m) (packGameWord1 r d i l)).ruleset = r ∧
    (decodeGameData (packGameWord0 a c1 c2 s t p h m) (packGameWord1 r d i l)).marketDeckMap = d ∧
    (decodeGameData (packGameWord0 a c1 c2 s t p h m) (packGameWord1 r d i l)).initialHandSize = i ∧
    (decodeGameData (packGameWord0 a c1 c2 s t p h m) (packGameWord1 r d i l)).playersLeftToJoin = l ∧
    (decodeGameData 0 0).gameCreator = 0 ∧
    (decodeGameData 0 0).status = 0 ∧
    (decodeGameData 0 0).playersJoined = 0 ∧
    (decodeGameData 0 0).maxPlayers = 0 := by
  have b1 : a + 2 ^ 160 * c1 < 2 ^ 168 := by
    simpa using pack_lt a c1 160 8 ha hc1
  have b2 : a + 2 ^ 160 * c1 + 2 ^ 168 * c2 < 2 ^ 176 := by
    simpa using pack_lt (a + 2 ^ 160 * c1) c2 168 8 b1 hc2
  have b3 : a + 2 ^ 160 * c1 + 2 ^ 168 * c2 + 2 ^ 176 * s < 2 ^ 184 := by
    simpa using pack_lt (a + 2 ^ 160 * c1 + 2 ^ 168 * c2) s 176 8 b2 hs
  have b4 : a + 2 ^ 160 * c1 + 2 ^ 168 * c2 + 2 ^ 176 * s + 2 ^ 184 * t < 2 ^ 224 := by
    simpa using
      pack_lt (a + 2 ^ 160 * c1 + 2 ^ 168 * c2 + 2 ^ 176 * s) t 184 40 b3 ht
  have b5 : a + 2 ^ 160 * c1 + 2 ^ 168 * c2 + 2 ^ 176 * s + 2 ^ 184 * t + 2 ^ 224 * p
      < 2 ^ 232 := by
    simpa using
      pack_lt (a + 2 ^ 160 * c1 + 2 ^ 168 * c2 + 2 ^ 176 * s + 2 ^ 184 * t) p
        224 8 b4 hp
  have b6 : a + 2 ^ 160 * c1 + 2 ^ 168 * c2 + 2 ^ 176 * s + 2 ^ 184 * t + 2 ^ 224 * p
      + 2 ^ 232 * h < 2 ^ 240 := by
    simpa using
      pack_lt (a + 2 ^ 160 * c1 + 2 ^ 168 * c2 + 2 ^ 176 * s + 2 ^ 184 * t
          + 2 ^ 224 * p) h 232 8 b5 hh
  have d1 : r + 2 ^ 160 * d < 2 ^ 224 := by
    simpa using pack_lt r d 160 64 hr hd
  have d2 : r + 2 ^ 160 * d + 2 ^ 224 * i < 2 ^ 232 := by
    simpa using pack_lt (r + 2 ^ 160 * d) i 224 8 d1 hi
  refine ⟨?_, ?_, ?_, ?_, ?_, ?_, ?_, ?_, ?_, ?_, ?_, ?_, ?_, ?_, ?_, ?_⟩
  · rw [gameCreator_eq]
    exact extract_at _ 0 a
      (c1 + 2 ^ 8 * c2 + 2 ^ 16 * s + 2 ^ 24 * t + 2 ^ 64 * p + 2 ^ 72 * h
        + 2 ^ 80 * m) 0 160
      (by simp [packGameWord0, Nat.shiftLeft_eq]; ring) (by norm_num) ha
  · rw [callCard_eq]
    exact extract_at _ a c1
      (c2 + 2 ^ 8 * s + 2 ^ 16 * t + 2 ^ 56 * p + 2 ^ 64 * h + 2 ^ 72 * m) 160 8
      (by simp [packGameWord0, Nat.shiftLeft_eq]; ring) ha hc1
  · rw [playerTurnIdx_eq]
    exact extract_at _ (a + 2 ^ 160 * c1) c2
      (s + 2 ^ 8 * t + 2 ^ 48 * p + 2 ^ 56 * h + 2 ^ 64 * m) 168 8
      (by simp [packGameWord0, Nat.shiftLeft_eq]; ring) b1 hc2
  · rw [status_eq]
    exact extract_at _ (a + 2 ^ 160 * c1 + 2 ^ 168 * c2) s
      (t + 2 ^ 40 * p + 2 ^ 48 * h + 2 ^ 56 * m) 176 8
      (by simp [packGameWord0, Nat.shiftLeft_eq]; ring) b2 hs
  · rw [lastMoveTimestamp_eq]
    exact extract_at _ (a + 2 ^ 160 * c1 + 2 ^ 168 * c2 + 2 ^ 176 * s) t
      (p + 2 ^ 8 * h + 2 ^ 16 * m) 184 40
      (by simp [packGameWord0, Nat.shiftLeft_eq]; ring) b3 ht
  · rw [numProposedPlayers_eq]
    exact extract_at _
      (a + 2 ^ 160 * c1 + 2 ^ 168 * c2 + 2 ^ 176 * s + 2 ^ 184 * t) p
      (h + 2 ^ 8 * m) 224 8
      (by simp [packGameWord0, Nat.shiftLeft_eq]; ring) b4 hp
  · rw [hookPermissions_eq]
    exact extract_at _
      (a + 2 ^ 160 * c1 + 2 ^ 168 * c2 + 2 ^ 176 * s + 2 ^ 184 * t + 2 ^ 224 * p)
      h m 232 8
      (by simp [packGameWord0, Nat.shiftLeft_eq]; ring) b5 hh
  · rw [playerStoreMap_eq]
    exact extract_at _
      (a + 2 ^ 160 * c1 + 2 ^ 168 * c2 + 2 ^ 176 * s + 2 ^ 184 * t + 2 ^ 224 * p
        + 2 ^ 232 * h) m 0 240 16
      (by simp [packGameWord0, Nat.shiftLeft_eq]; ring) b6 hm
  · rw [ruleset_eq]
    exact extract_at _ 0 r (d + 2 ^ 64 * i + 2 ^ 72 * l) 0 160
      (by simp [packGameWord1, Nat.shiftLeft_eq]; ring) (by norm_num) hr
  · rw [marketDeckMap_eq]
    exact extract_at _ r d (i + 2 ^ 8 * l) 160 64
      (by simp [packGameWord1, Nat.shiftLeft_eq]; ring) hr hd
  · rw [initialHandSize_eq]
    exact extract_at _ (r + 2 ^ 160 * d) i l 224 8
      (by simp [packGameWord1, Nat.shiftLeft_eq]; ring) d1 hi
  · rw [playersLeftToJoin_eq]
    exact extract_at _ (r + 2 ^ 160 * d + 2 ^ 224 * i) l 0 232 8
      (by simp [packGameWord1, Nat.shiftLeft_eq]; ring) d2 hl
  · rw [gameCreator_eq]
    simp
  · rw [status_eq]
    simp
  · simp [decodeGameData, countPlayersFromStore, loadBits, countBitsAux]
  · simp [decodeGameData, countPlayersFromStore, loadBits, countBitsAux]

/-- C2 witness: the round trip evaluated at one concrete packing. -/
theorem c2_decode_round_trip_witness :
    (decodeGameData (packGameWord0 5 1 2 3 4 6 7 8) (packGameWord1 9 10 11 12)).status = 3 ∧
    (decodeGameData (packGameWord0 5 1 2 3 4 6 7 8) (packGameWord1 9 10 11 12)).marketDeckMap = 10 := by
  have hfull := c2_decode_round_trip 5 1 2 3 4 6 7 8 9 10 11 12
    (by norm_num) (by norm_num) (by norm_num) (by norm_num) (by norm_num)
    (by norm_num) (by norm_num) (by norm_num) (by norm_num) (by norm_num)
    (by norm_num) (by norm_num)
  exact ⟨hfull.2.2.2.1, hfull.2.2.2.2.2.2.2.2.2.1⟩

theorem ite_testBit_eq (x j : Nat) :
    (if x.testBit j then 1 else 0) = x / 2 ^ j % 2 := by
  rw [Nat.testBit_to_div_mod]
  have h2 : x / 2 ^ j % 2 < 2 := Nat.mod_lt _ (by norm_num)
  by_cases hc : x / 2 ^ j % 2 = 1
  · simp [hc]
  · simp [hc]
    omega

theorem countBitsAux_eq_sum (k : Nat) :
    ∀ n, n < 2 ^ k → countBitsAux n = ∑ j ∈ Finset.range k, n / 2 ^ j % 2 := by
  induction k with
  | zero =>
    intro n hn
    interval_cases n
    simp [countBitsAux]
  | succ k ih =>
    intro n hn
    by_cases hn0 : n = 0
    · subst hn0
      simp [countBitsAux]
    · have hdiv : n / 2 < 2 ^ k := by
        rw [Nat.div_lt_iff_lt_mul (by norm_num)]
        calc n < 2 ^ (k + 1) := hn
          _ = 2 ^ k * 2 := by rw [pow_succ]
      have hstep : countBitsAux n = n % 2 + countBitsAux (n / 2) := by
        rw [countBitsAux.eq_def, dif_neg hn0]
      rw [hstep, ih (n / 2) hdiv, Finset.sum_range_succ']
      have hcg : ∀ j, n / 2 / 2 ^ j % 2 = n / 2 ^ (j + 1) % 2 := fun j => by
        rw [Nat.div_div_eq_div_mul, ← pow_succ']
      simp only [Finset.sum_congr rfl fun j _ => hcg j, pow_zero, Nat.div_one]
      omega

theorem countPlayersFromStore_eq_spec (m : Nat) (hm : m < 2 ^ 16) :
    countPlayersFromStore m = seatPopcountSpec m := by
  have hdiv : m / 2 < 2 ^ 15 := by
    rw [Nat.div_lt_iff_lt_mul (by norm_num)]
    calc m < 2 ^ 16 := hm
      _ = 2 ^ 15 * 2 := by norm_num
  have hlhs : countPlayersFromStore m = ∑ j ∈ Finset.range 15, m / 2 ^ (j + 1) % 2 := by
    unfold countPlayersFromStore
    rw [Nat.shiftRight_eq_div_pow, pow_one, countBitsAux_eq_sum 15 (m / 2) hdiv]
    exact Finset.sum_congr rfl fun j _ => by
      rw [Nat.div_div_eq_div_mul, ← pow_succ']
  have hrhs : seatPopcountSpec m = ∑ j ∈ Finset.range 15, m / 2 ^ (j + 1) % 2 := by
    unfold seatPopcountSpec
    rw [Finset.card_filter, Finset.sum_range_succ']
    have hz : (if (0 : Nat) ≠ 0 ∧ m.testBit 0 then 1 else 0) = 0 := by simp
    rw [hz, add_zero]
    exact Finset.sum_congr rfl fun j _ => by
      simp only [Nat.succ_ne_zero, ne_eq, not_false_eq_true, true_and]
      exact ite_testBit_eq m (j + 1)
  rw [hlhs, hrhs]

/-- C3: for every pair of input words, the playersJoined field of the decoded
record equals the number of set bits at positions 1 through 15 of
the 16-bit seat-occupancy field (bit 0 excluded), and maxPlayers equals
playersJoined plus playersLeftToJoin. -/
theorem c3_players_joined_popcount (w0 w1 : Nat) :
    (decodeGameData w0 w1).playersJoined
      = seatPopcountSpec ((decodeGameData w0 w1).playerStoreMap) ∧
    (decodeGameData w0 w1).maxPlayers
      = (decodeGameData w0 w1).playersJoined
        + (decodeGameData w0 w1).playersLeftToJoin := by
  constructor
  · have hlt : (decodeGameData w0 w1).playerStoreMap < 2 ^ 16 := by
      rw [playerStoreMap_eq]
      exact Nat.mod_lt _ (by norm_num)
    exact countPlayersFromStore_eq_spec _ hlt
  · rfl

theorem deckMapToIndexesAux_eq (k : Nat) :
    ∀ cursor i maxCards, maxCards - i = k →
      deckMapToIndexesAux cursor i maxCards
        = ((List.range k).filter (fun j => cursor.testBit j)).map (fun j => j + i) := by
  induction k with
  | zero =>
    intro cursor i maxCards hk
    rw [deckMapToIndexesAux.eq_def, if_pos (Or.inr (by omega))]
    simp
  | succ k ih =>
    intro cursor i maxCards hk
    by_cases hc : cursor = 0
    · subst hc
      rw [deckMapToIndexesAux.eq_def, if_pos (Or.inl rfl)]
      simp [Nat.zero_testBit]
    · rw [deckMapToIndexesAux.eq_def, if_neg (by simp [hc]; omega)]
      rw [ih (cursor / 2) (i + 1) maxCards (by omega)]
      rw [List.range_succ_eq_map, List.filter_cons, List.filter_map]
      have hcomp : ((fun j => cursor.testBit j) ∘ Nat.succ)
          = fun j => (cursor / 2).testBit j := by
        funext j
        simp [Function.comp, Nat.testBit_succ]
      rw [hcomp]
      have hfun : (fun j => j + (i + 1)) = ((fun j => j + i) ∘ Nat.succ) := by
        funext j
        simp [Function.comp]
        omega
      by_cases hbit : cursor % 2 = 1
      · rw [if_pos hbit,
          if_pos (show cursor.testBit 0 = true by
            rw [Nat.testBit_zero]; simp [hbit])]
        rw [List.map_cons, List.map_map, hfun]
        simp
      · rw [if_neg hbit,
          if_neg (show ¬cursor.testBit 0 = true by
            rw [Nat.testBit_zero]; simp [hbit])]
        rw [List.map_map, hfun]
        simp

theorem deckMapToIndexes_eq (deckMap maxCards : Nat) :
    deckMapToIndexes deckMap maxCards
      = setBitIndexesBelow (decodeDeckMap deckMap).mapBits maxCards := by
  unfold deckMapToIndexes setBitIndexesBelow
  rw [deckMapToIndexesAux_eq maxCards _ 0 maxCards (by omega)]
  simp

theorem cardBitSize_eq_sub_mod (raw : Nat) :
    (decodeDeckMap raw).cardBitSize = 8 - raw % 4 := by
  have h := Nat.and_pow_two_sub_one_eq_mod raw 2
  norm_num at h
  simp [decodeDeckMap, h]

theorem cardBitSize_bounds (raw : Nat) :
    5 ≤ (decodeDeckMap raw).cardBitSize ∧ (decodeDeckMap raw).cardBitSize ≤ 8 := by
  rw [cardBitSize_eq_sub_mod]
  have h4 : raw % 4 < 4 := Nat.mod_lt _ (by norm_num)
  omega

/-- C5: for every deck-map value and maxCards bound, the index walk
returns a strictly increasing list of indices below maxCards whose
length is the number of set bits of mapBits at positions below
maxCards. -/
theorem c5_deck_map_indexes (deckMap maxCards : Nat) :
    (deckMapToIndexes deckMap maxCards).Pairwise (· < ·) ∧
    (deckMapToIndexes deckMap maxCards).all
      (fun x => decide (x < maxCards)) = true ∧
    (deckMapToIndexes deckMap maxCards).length
      = (setBitIndexesBelow (decodeDeckMap deckMap).mapBits maxCards).length := by
  rw [deckMapToIndexes_eq]
  refine ⟨?_, ?_, rfl⟩
  · unfold setBitIndexesBelow
    exact (List.pairwise_lt_range maxCards).filter _
  · unfold setBitIndexesBelow
    simp only [List.all_eq_true, decide_eq_true_eq]
    intro x hx
    have hmem := List.mem_range.mp (List.mem_of_mem_filter hx)
    exact hmem

/-- C6: the derived card bit width is 8 minus the low 2 bits of the raw
deck map, hence always between 5 and 8; low bits 11 give 5 and low bits
00 give 8. -/
theorem c6_card_bit_width (raw : Nat) :
    (decodeDeckMap raw).cardBitSize = 8 - raw % 4 ∧
    5 ≤ (decodeDeckMap raw).cardBitSize ∧
    (decodeDeckMap raw).cardBitSize ≤ 8 ∧
    (raw % 4 = 3 → (decodeDeckMap raw).cardBitSize = 5) ∧
    (raw % 4 = 0 → (decodeDeckMap raw).cardBitSize = 8) := by
  have hbs := cardBitSize_eq_sub_mod raw
  have hb := cardBitSize_bounds raw
  refine ⟨hbs, hb.1, hb.2, fun h3 => by rw [hbs, h3], fun h0 => by rw [hbs, h0]⟩

/-- C6 witness: raw values 3 (low bits 11) and 4 (low bits 00). -/
theorem c6_card_bit_width_witness :
    (decodeDeckMap 3).cardBitSize = 5 ∧ (decodeDeckMap 4).cardBitSize = 8 :=
  ⟨(c6_card_bit_width 3).2.2.2.1 (by norm_num),
   (c6_card_bit_width 4).2.2.2.2 (by norm_num)⟩

/-- C7 counterexample: the claim asserts a deck-map input with derived
cardBitSize 0 (or above 32) exists; no such input exists, since the
width selector masks only two bits. -/
theorem c7_no_degenerate_input :
    ¬ ∃ d, (decodeDeckMap d).cardBitSize = 0 ∨
      32 < (decodeDeckMap d).cardBitSize := by
  rintro ⟨d, hd⟩
  have hb := cardBitSize_bounds d
  omega

/-- C7 amended: the defensive empty-list guard of `decodeHandCards` for
cardBitSize 0 or above 32 is unreachable; every deck map derives a
cardBitSize between 5 and 8, and in particular never 0. -/
theorem c7_guard_unreachable (d : Nat) :
    5 ≤ (decodeDeckMap d).cardBitSize ∧
    (decodeDeckMap d).cardBitSize ≤ 8 ∧
    ¬((decodeDeckMap d).cardBitSize = 0 ∨ 32 < (decodeDeckMap d).cardBitSize) := by
  have hb := cardBitSize_bounds d
  exact ⟨hb.1, hb.2, by omega⟩

/-- C7 witness: the guard condition evaluated at deck map 4, whose low
bits imply the largest subtrahend the mask allows. -/
theorem c7_guard_unreachable_witness :
    ¬((decodeDeckMap 3).cardBitSize = 0 ∨ 32 < (decodeDeckMap 3).cardBitSize) :=
  (c7_guard_unreachable 3).2.2

theorem decodeHandCards_eq_map (d h0 h1 : Nat) :
    decodeHandCards d h0 h1
      = (deckMapToIndexes d 64).map
          (specCardAt (decodeDeckMap d).cardBitSize h0 h1) := by
  have hb := cardBitSize_bounds d
  have hcw : 0 < 256 / (decodeDeckMap d).cardBitSize :=
    Nat.div_pos (by omega) (by omega)
  simp only [decodeHandCards, specCardAt]
  rw [if_neg (by omega), if_neg (by omega)]
  rfl

/-- C8: decoding the hand cards walks exactly the index set of the deck
map and, per index, extracts a cardBitSize-wide field from word 0 when
the index is below 256 / cardBitSize and from word 1 otherwise, at bit
offset (index mod cardsPerWord) * cardBitSize, in index order. -/
theorem c8_hand_cards_extraction (d h0 h1 : Nat) :
    decodeHandCards d h0 h1
      = (deckMapToIndexes d 64).map
          (specCardAt (decodeDeckMap d).cardBitSize h0 h1) :=
  decodeHandCards_eq_map d h0 h1

/-- C10: the hand decode returns at most 64 cards, every returned index
is below 64, set bits of the deck map above position 64 of mapBits are
ignored, while the reference deck ordering has only 54 entries. -/
theorem c10_hand_cards_cap (d h0 h1 : Nat) :
    (decodeHandCards d h0 h1).length ≤ 64 ∧
    (decodeHandCards d h0 h1).all (fun c => decide (c.index < 64)) = true ∧
    decodeHandCards d h0 h1 = decodeHandCards (d % 2 ^ 66) h0 h1 ∧
    WHOT_DECK.length = 54 := by
  refine ⟨?_, ?_, ?_, rfl⟩
  · rw [decodeHandCards_eq_map, List.length_map, deckMapToIndexes_eq]
    unfold setBitIndexesBelow
    calc (List.filter _ (List.range 64)).length
        ≤ (List.range 64).length := List.length_filter_le _ _
      _ = 64 := List.length_range 64
  · rw [decodeHandCards_eq_map]
    simp only [List.all_eq_true, List.mem_map, decide_eq_true_eq]
    rintro c ⟨idx, hidx, rfl⟩
    have hidx64 : idx < 64 := by
      rw [deckMapToIndexes_eq] at hidx
      unfold setBitIndexesBelow at hidx
      exact List.mem_range.mp (List.mem_of_mem_filter hidx)
    simpa [specCardAt] using hidx64
  · have hbs : (decodeDeckMap (d % 2 ^ 66)).cardBitSize
        = (decodeDeckMap d).cardBitSize := by
      rw [cardBitSize_eq_sub_mod, cardBitSize_eq_sub_mod,
        Nat.mod_mod_of_dvd d (by norm_num : (4 : Nat) ∣ 2 ^ 66)]
    have hidx : deckMapToIndexes (d % 2 ^ 66) 64 = deckMapToIndexes d 64 := by
      rw [deckMapToIndexes_eq, deckMapToIndexes_eq]
      unfold setBitIndexesBelow
      refine List.filter_congr fun j hj => ?_
      have hj64 : j < 64 := List.mem_range.mp hj
      show ((decodeDeckMap (d % 2 ^ 66)).mapBits).testBit j
          = ((decodeDeckMap d).mapBits).testBit j
      show ((d % 2 ^ 66) >>> 2).testBit j = (d >>> 2).testBit j
      rw [Nat.testBit_shiftRight, Nat.testBit_shiftRight,
        Nat.testBit_mod_two_pow]
      simp [show 2 + j < 66 by omega]
    rw [decodeHandCards_eq_map, decodeHandCards_eq_map, hbs, hidx]

/-- C9: the game base slot is the keccak-256 hash of the ABI-encoded
tuple (gameId, declaredGameMappingSlot), and the player base slot is the
hash of the ABI encoding of the game slot plus the player-struct offset,
advanced by three words per player index; both are total functions. -/
theorem c9_slot_derivation (keccak : List Nat → Nat) (gameId playerIndex : Nat) :
    gameDataSlot keccak gameId = specGameBaseSlot keccak gameId ∧
    playerDataSlot keccak gameId playerIndex
      = specPlayerBaseSlot keccak gameId playerIndex :=
  ⟨rfl, rfl⟩

theorem readGameData_fallback_spec (c : RpcClient) (keccak : List Nat → Nat)
    (gameId : Nat) :
    ((readExtsload c (.range (gameDataSlot keccak gameId) 2)).isOk = true →
      (readGameData c keccak gameId).2 = []) ∧
    ((readExtsload c (.range (gameDataSlot keccak gameId) 2)).isOk = false →
      (readGameData c keccak gameId).2
        = [[gameDataSlot keccak gameId, gameDataSlot keccak gameId + 1]] ∧
      (readGameData c keccak gameId).1
        = Except.map
            (fun values => decodeGameData (values.getD 0 0) (values.getD 1 0))
            (readStorageSlots c
              [gameDataSlot keccak gameId, gameDataSlot keccak gameId + 1])) ∧
    ((readGameData c keccak gameId).1.isOk = false ↔
      (readExtsload c (.range (gameDataSlot keccak gameId) 2)).isOk = false ∧
      (readStorageSlots c
        [gameDataSlot keccak gameId, gameDataSlot keccak gameId + 1]).isOk
          = false) := by
  cases hp : readExtsload c (.range (gameDataSlot keccak gameId) 2) with
  | ok v =>
    simp [readGameData, hp, Except.isOk, Except.toBool, Except.map]
  | error e =>
    cases hf : readStorageSlots c
        [gameDataSlot keccak gameId, gameDataSlot keccak gameId + 1] with
    | ok w => simp [readGameData, hp, hf, Except.isOk, Except.toBool, Except.map]
    | error e2 => simp [readGameData, hp, hf, Except.isOk, Except.toBool, Except.map]

theorem readCommitmentHash_fallback_spec (c : RpcClient) (keccak : List Nat → Nat)
    (gameId : Nat) :
    ((readExtsload c (.range (commitmentSlot keccak gameId) 1)).isOk = true →
      (readCommitmentHash c keccak gameId).2 = []) ∧
    ((readExtsload c (.range (commitmentSlot keccak gameId) 1)).isOk = false →
      (readCommitmentHash c keccak gameId).2 = [[commitmentSlot keccak gameId]] ∧
      (readCommitmentHash c keccak gameId).1
        = Except.map (fun values => values.getD 0 0)
            (readStorageSlots c [commitmentSlot keccak gameId])) ∧
    ((readCommitmentHash c keccak gameId).1.isOk = false ↔
      (readExtsload c (.range (commitmentSlot keccak gameId) 1)).isOk = false ∧
      (readStorageSlots c [commitmentSlot keccak gameId]).isOk = false) := by
  cases hp : readExtsload c (.range (commitmentSlot keccak gameId) 1) with
  | ok v =>
    simp [readCommitmentHash, hp, Except.isOk, Except.toBool, Except.map]
  | error e =>
    cases hf : readStorageSlots c [commitmentSlot keccak gameId] with
    | ok w => simp [readCommitmentHash, hp, hf, Except.isOk, Except.toBool, Except.map]
    | error e2 => simp [readCommitmentHash, hp, hf, Except.isOk, Except.toBool, Except.map]

theorem readNextGameId_fallback_spec (c : RpcClient) :
    ((readExtsload c (.range GAME_ID_SLOT 1)).isOk = true →
      (readNextGameId c).2 = []) ∧
    ((readExtsload c (.range GAME_ID_SLOT 1)).isOk = false →
      (readNextGameId c).2 = [[GAME_ID_SLOT]] ∧
      (readNextGameId c).1
        = Except.map (fun values => values.getD 0 0)
            (readStorageSlots c [GAME_ID_SLOT])) ∧
    ((readNextGameId c).1.isOk = false ↔
      (readExtsload c (.range GAME_ID_SLOT 1)).isOk = false ∧
      (readStorageSlots c [GAME_ID_SLOT]).isOk = false) := by
  cases hp : readExtsload c (.range GAME_ID_SLOT 1) with
  | ok v =>
    simp [readNextGameId, hp, Except.isOk, Except.toBool, Except.map]
  | error e =>
    cases hf : readStorageSlots c [GAME_ID_SLOT] with
    | ok w => simp [readNextGameId, hp, hf, Except.isOk, Except.toBool, Except.map]
    | error e2 => simp [readNextGameId, hp, hf, Except.isOk, Except.toBool, Except.map]

theorem readPlayerData_fallback_spec (c : RpcClient) (keccak : List Nat → Nat)
    (gameId playerIndex : Nat) :
    ((readExtsload c
        (.range (playerDataSlot keccak gameId playerIndex) 3)).isOk = true →
      (readPlayerData c keccak gameId playerIndex).2 = []) ∧
    ((readExtsload c
        (.range (playerDataSlot keccak gameId playerIndex) 3)).isOk = false →
      (readPlayerData c keccak gameId playerIndex).2
        = [[playerDataSlot keccak gameId playerIndex,
            playerDataSlot keccak gameId playerIndex + 1,
            playerDataSlot keccak gameId playerIndex + 2]] ∧
      (readPlayerData c keccak gameId playerIndex).1
        = Except.map
            (fun values =>
              decodePlayerData (values.getD 0 0) (values.getD 1 0) (values.getD 2 0))
            (readStorageSlots c
              [playerDataSlot keccak gameId playerIndex,
               playerDataSlot keccak gameId playerIndex + 1,
               playerDataSlot keccak gameId playerIndex + 2])) ∧
    ((readPlayerData c keccak gameId playerIndex).1.isOk = false ↔
      (readExtsload c
        (.range (playerDataSlot keccak gameId playerIndex) 3)).isOk = false ∧
      (readStorageSlots c
        [playerDataSlot keccak gameId playerIndex,
         playerDataSlot keccak gameId playerIndex + 1,
         playerDataSlot keccak gameId playerIndex + 2]).isOk = false) := by
  cases hp : readExtsload c (.range (playerDataSlot keccak gameId playerIndex) 3) with
  | ok v =>
    simp [readPlayerData, hp, Except.isOk, Except.toBool, Except.map]
  | error e =>
    cases hf : readStorageSlots c
        [playerDataSlot keccak gameId playerIndex,
         playerDataSlot keccak gameId playerIndex + 1,
         playerDataSlot keccak gameId playerIndex + 2] with
    | ok w => simp [readPlayerData, hp, hf, Except.isOk, Except.toBool, Except.map]
    | error e2 => simp [readPlayerData, hp, hf, Except.isOk, Except.toBool, Except.map]

theorem chunkSlots_ne_nil (keccak : List Nat → Nat) (slice : List Nat)
    (h : slice ≠ []) : chunkSlots keccak slice ≠ [] := by
  cases slice with
  | nil => exact absurd rfl h
  | cons a rest => simp [chunkSlots]

theorem runBatchChunk_fallback_spec (c : RpcClient) (keccak : List Nat → Nat)
    (slice : List Nat) (hne : slice ≠ []) :
    ((readExtsload c (.list (chunkSlots keccak slice))).isOk = true →
      (runBatchChunk c keccak slice).2 = []) ∧
    ((readExtsload c (.list (chunkSlots keccak slice))).isOk = false →
      (runBatchChunk c keccak slice).2 = [chunkSlots keccak slice] ∧
      (runBatchChunk c keccak slice).1
        = Except.map (assignChunk slice)
            (readStorageSlots c (chunkSlots keccak slice))) ∧
    ((runBatchChunk c keccak slice).1.isOk = false ↔
      (readExtsload c (.list (chunkSlots keccak slice))).isOk = false ∧
      (readStorageSlots c (chunkSlots keccak slice)).isOk = false) := by
  have hslots : (chunkSlots keccak slice).isEmpty = false := by
    simpa [List.isEmpty_iff] using chunkSlots_ne_nil keccak slice hne
  cases hp : readExtsload c (.list (chunkSlots keccak slice)) with
  | ok v =>
    simp [runBatchChunk, hslots, hp, Except.isOk, Except.toBool, Except.map]
  | error e =>
    cases hf : readStorageSlots c (chunkSlots keccak slice) with
    | ok w => simp [runBatchChunk, hslots, hp, hf, Except.isOk, Except.toBool, Except.map]
    | error e2 => simp [runBatchChunk, hslots, hp, hf, Except.isOk, Except.toBool, Except.map]

theorem runBatchChunk_primary_ok (c : RpcClient) (keccak : List Nat → Nat)
    (slice : List Nat) (v : List Nat)
    (hp : readExtsload c (.list (chunkSlots keccak slice)) = .ok v) :
    ∃ entries, runBatchChunk c keccak slice = (.ok entries, []) := by
  by_cases hemp : (chunkSlots keccak slice).isEmpty = true
  · exact ⟨[], by simp [runBatchChunk, hemp]⟩
  · refine ⟨assignChunk slice v, ?_⟩
    simp [runBatchChunk, Bool.eq_false_iff.mpr hemp, hp]

theorem runBatchChunk_error_iff (c : RpcClient) (keccak : List Nat → Nat)
    (slice : List Nat) :
    (runBatchChunk c keccak slice).1.isOk = false ↔
      (readExtsload c (.list (chunkSlots keccak slice))).isOk = false ∧
      (readStorageSlots c (chunkSlots keccak slice)).isOk = false := by
  by_cases hemp : (chunkSlots keccak slice).isEmpty = true
  · have hnil : chunkSlots keccak slice = [] := List.isEmpty_iff.mp hemp
    rw [hnil]
    simp [runBatchChunk, hnil, readStorageSlots, List.mapM, List.mapM.loop,
      pure, Except.pure, Except.isOk, Except.toBool]
  · have hemp2 : (chunkSlots keccak slice).isEmpty = false :=
      Bool.eq_false_iff.mpr hemp
    cases hp : readExtsload c (.list (chunkSlots keccak slice)) with
    | ok v => simp [runBatchChunk, hemp2, hp, Except.isOk, Except.toBool]
    | error e =>
      cases hf : readStorageSlots c (chunkSlots keccak slice) with
      | ok w => simp [runBatchChunk, hemp2, hp, hf, Except.isOk, Except.toBool]
      | error e2 => simp [runBatchChunk, hemp2, hp, hf, Except.isOk, Except.toBool]

theorem batchAux_no_fallback (c : RpcClient) (keccak : List Nat → Nat) :
    ∀ chunks,
      (∀ ch ∈ chunks, (readExtsload c (.list (chunkSlots keccak ch))).isOk = true) →
      (readGameDataBatchAux c keccak chunks).2 = [] := by
  intro chunks
  induction chunks with
  | nil =>
    intro _
    simp [readGameDataBatchAux]
  | cons ch rest ih =>
    intro hall
    have hch := hall ch (by simp)
    obtain ⟨v, hv⟩ : ∃ v, readExtsload c (.list (chunkSlots keccak ch)) = .ok v := by
      cases hx : readExtsload c (.list (chunkSlots keccak ch)) with
      | ok v => exact ⟨v, rfl⟩
      | error e =>
        rw [hx] at hch
        simp [Except.isOk, Except.toBool] at hch
    obtain ⟨entries, hrun⟩ := runBatchChunk_primary_ok c keccak ch v hv
    have hrest := ih (fun ch2 h2 => hall ch2 (by simp [h2]))
    rcases haux : readGameDataBatchAux c keccak rest with ⟨res, t2⟩
    have ht2 : t2 = [] := by
      rw [haux] at hrest
      exact hrest
    cases res <;> simp [readGameDataBatchAux, hrun, haux, ht2]

theorem batchAux_error_witness (c : RpcClient) (keccak : List Nat → Nat) :
    ∀ chunks, (readGameDataBatchAux c keccak chunks).1.isOk = false →
      ∃ ch, ch ∈ chunks ∧
        (readExtsload c (.list (chunkSlots keccak ch))).isOk = false ∧
        (readStorageSlots c (chunkSlots keccak ch)).isOk = false := by
  intro chunks
  induction chunks with
  | nil =>
    intro h
    simp [readGameDataBatchAux, Except.isOk, Except.toBool] at h
  | cons ch rest ih =>
    intro h
    rcases hrun : runBatchChunk c keccak ch with ⟨res, t⟩
    cases res with
    | error e =>
      have hiff := runBatchChunk_error_iff c keccak ch
      rw [hrun] at hiff
      have hboth := hiff.mp (by simp [Except.isOk, Except.toBool])
      exact ⟨ch, by simp, hboth.1, hboth.2⟩
    | ok entries =>
      rcases haux : readGameDataBatchAux c keccak rest with ⟨res2, t2⟩
      simp only [readGameDataBatchAux, hrun, haux] at h
      cases res2 with
      | error e2 =>
        have hrest : (readGameDataBatchAux c keccak rest).1.isOk = false := by
          rw [haux]
          simp [Except.isOk, Except.toBool]
        obtain ⟨ch2, hmem, h1, h2⟩ := ih hrest
        exact ⟨ch2, by simp [hmem], h1, h2⟩
      | ok more =>
        simp [Except.isOk, Except.toBool] at h

/-- C4: for every word-read operation, a failing primary batched
extsload read triggers the raw-storage fallback exactly once, on the
same slots in the same order, whose result is returned unmodified (up to
how the operation decodes the positional words); a succeeding primary
never triggers the fallback; and a read error surfaces only when the
primary attempt and the single fallback attempt have both failed. -/
theorem c4_fallback_once (c : RpcClient) (keccak : List Nat → Nat)
    (gameId playerIndex : Nat) (gameIds : List Nat) (batchSize : Nat)
    (slice : List Nat) (hne : slice ≠ []) :
    (((readExtsload c (.range (gameDataSlot keccak gameId) 2)).isOk = true →
        (readGameData c keccak gameId).2 = []) ∧
      ((readExtsload c (.range (gameDataSlot keccak gameId) 2)).isOk = false →
        (readGameData c keccak gameId).2
          = [[gameDataSlot keccak gameId, gameDataSlot keccak gameId + 1]] ∧
        (readGameData c keccak gameId).1
          = Except.map
              (fun values => decodeGameData (values.getD 0 0) (values.getD 1 0))
              (readStorageSlots c
                [gameDataSlot keccak gameId, gameDataSlot keccak gameId + 1])) ∧
      ((readGameData c keccak gameId).1.isOk = false ↔
        (readExtsload c (.range (gameDataSlot keccak gameId) 2)).isOk = false ∧
        (readStorageSlots c
          [gameDataSlot keccak gameId, gameDataSlot keccak gameId + 1]).isOk
            = false)) ∧
    (((readExtsload c (.range (commitmentSlot keccak gameId) 1)).isOk = true →
        (readCommitmentHash c keccak gameId).2 = []) ∧
      ((readExtsload c (.range (commitmentSlot keccak gameId) 1)).isOk = false →
        (readCommitmentHash c keccak gameId).2 = [[commitmentSlot keccak gameId]] ∧
        (readCommitmentHash c keccak gameId).1
          = Except.map (fun values => values.getD 0 0)
              (readStorageSlots c [commitmentSlot keccak gameId])) ∧
      ((readCommitmentHash c keccak gameId).1.isOk = false ↔
        (readExtsload c (.range (commitmentSlot keccak gameId) 1)).isOk = false ∧
        (readStorageSlots c [commitmentSlot keccak gameId]).isOk = false)) ∧
    (((readExtsload c (.range GAME_ID_SLOT 1)).isOk = true →
        (readNextGameId c).2 = []) ∧
      ((readExtsload c (.range GAME_ID_SLOT 1)).isOk = false →
        (readNextGameId c).2 = [[GAME_ID_SLOT]] ∧
        (readNextGameId c).1
          = Except.map (fun values => values.getD 0 0)
              (readStorageSlots c [GAME_ID_SLOT])) ∧
      ((readNextGameId c).1.isOk = false ↔
        (readExtsload c (.range GAME_ID_SLOT 1)).isOk = false ∧
        (readStorageSlots c [GAME_ID_SLOT]).isOk = false)) ∧
    (((readExtsload c
        (.range (playerDataSlot keccak gameId playerIndex) 3)).isOk = true →
        (readPlayerData c keccak gameId playerIndex).2 = []) ∧
      ((readExtsload c
        (.range (playerDataSlot keccak gameId playerIndex) 3)).isOk = false →
        (readPlayerData c keccak gameId playerIndex).2
          = [[playerDataSlot keccak gameId playerIndex,
              playerDataSlot keccak gameId playerIndex + 1,
              playerDataSlot keccak gameId playerIndex + 2]] ∧
        (readPlayerData c keccak gameId playerIndex).1
          = Except.map
              (fun values =>
                decodePlayerData (values.getD 0 0) (values.getD 1 0)
                  (values.getD 2 0))
              (readStorageSlots c
                [playerDataSlot keccak gameId playerIndex,
                 playerDataSlot keccak gameId playerIndex + 1,
                 playerDataSlot keccak gameId playerIndex + 2])) ∧
      ((readPlayerData c keccak gameId playerIndex).1.isOk = false ↔
        (readExtsload c
          (.range (playerDataSlot keccak gameId playerIndex) 3)).isOk = false ∧
        (readStorageSlots c
          [playerDataSlot keccak gameId playerIndex,
           playerDataSlot keccak gameId playerIndex + 1,
           playerDataSlot keccak gameId playerIndex + 2]).isOk = false)) ∧
    (((readExtsload c (.list (chunkSlots keccak slice))).isOk = true →
        (runBatchChunk c keccak slice).2 = []) ∧
      ((readExtsload c (.list (chunkSlots keccak slice))).isOk = false →
        (runBatchChunk c keccak slice).2 = [chunkSlots keccak slice] ∧
        (runBatchChunk c keccak slice).1
          = Except.map (assignChunk slice)
              (readStorageSlots c (chunkSlots keccak slice))) ∧
      ((runBatchChunk c keccak slice).1.isOk = false ↔
        (readExtsload c (.list (chunkSlots keccak slice))).isOk = false ∧
        (readStorageSlots c (chunkSlots keccak slice)).isOk = false)) ∧
    ((∀ ch ∈ chunksOf batchSize (firstDedup (gameIds.filter (fun id => 0 < id))),
        (readExtsload c (.list (chunkSlots keccak ch))).isOk = true) →
      (readGameDataBatch c keccak gameIds batchSize).2 = []) ∧
    ((readGameDataBatch c keccak gameIds batchSize).1.isOk = false →
      ∃ ch, ch ∈ chunksOf batchSize (firstDedup (gameIds.filter (fun id => 0 < id))) ∧
        (readExtsload c (.list (chunkSlots keccak ch))).isOk = false ∧
        (readStorageSlots c (chunkSlots keccak ch)).isOk = false) :=
  ⟨readGameData_fallback_spec c keccak gameId,
   readCommitmentHash_fallback_spec c keccak gameId,
   readNextGameId_fallback_spec c,
   readPlayerData_fallback_spec c keccak gameId playerIndex,
   runBatchChunk_fallback_spec c keccak slice hne,
   fun hall => batchAux_no_fallback c keccak _ hall,
   fun herr => batchAux_error_witness c keccak _ herr⟩

/-- C4 witness: with an always-failing primary the game-record reader
hands exactly its two slots to the fallback once; with a succeeding
primary the next-game-id reader never touches the fallback. -/
theorem c4_fallback_once_witness :
    (readGameData clientRawOnly kZero 1).2 = [[0, 1]] ∧
    (readNextGameId clientPrimaryOk).2 = [] := by
  have h1 := c4_fallback_once clientRawOnly kZero 1 0 [] 1 [1] (by simp)
  have h2 := c4_fallback_once clientPrimaryOk kZero 1 0 [] 1 [1] (by simp)
  exact ⟨(h1.1.2.1 rfl).1, h2.2.2.1.1 rfl⟩

theorem chunkSlots_eq_nil_iff (keccak : List Nat → Nat) (slice : List Nat) :
    chunkSlots keccak slice = [] ↔ slice = [] := by
  cases slice <;> simp [chunkSlots]

theorem assignChunk_keys :
    ∀ slice values : List Nat, (assignChunk slice values).map Prod.fst = slice := by
  intro slice
  induction slice with
  | nil => intro values; rfl
  | cons a rest ih => intro values; simp [assignChunk, ih]

theorem runBatchChunk_ok_keys (c : RpcClient) (keccak : List Nat → Nat)
    (slice : List Nat) (entries : List (Nat × GameDataView)) (t : List (List Nat))
    (h : runBatchChunk c keccak slice = (.ok entries, t)) :
    entries.map Prod.fst = slice := by
  by_cases hemp : (chunkSlots keccak slice).isEmpty = true
  · have hnil : slice = [] :=
      (chunkSlots_eq_nil_iff keccak slice).mp (List.isEmpty_iff.mp hemp)
    simp [runBatchChunk, hemp] at h
    rw [h.1]
    simp [hnil]
  · have hemp2 : (chunkSlots keccak slice).isEmpty = false :=
      Bool.eq_false_iff.mpr hemp
    cases hp : readExtsload c (.list (chunkSlots keccak slice)) with
    | ok v =>
      simp [runBatchChunk, hemp2, hp] at h
      rw [← h.1]
      exact assignChunk_keys slice v
    | error e =>
      cases hf : readStorageSlots c (chunkSlots keccak slice) with
      | ok w =>
        simp [runBatchChunk, hemp2, hp, hf] at h
        rw [← h.1]
        exact assignChunk_keys slice w
      | error e2 =>
        simp [runBatchChunk, hemp2, hp, hf] at h

theorem batchAux_ok_keys (c : RpcClient) (keccak : List Nat → Nat) :
    ∀ chunks (entries : List (Nat × GameDataView)) (t : List (List Nat)),
      readGameDataBatchAux c keccak chunks = (.ok entries, t) →
      entries.map Prod.fst = chunks.flatten := by
  intro chunks
  induction chunks with
  | nil =>
    intro entries t h
    simp [readGameDataBatchAux] at h
    rw [h.1]
    simp
  | cons ch rest ih =>
    intro entries t h
    rcases hrun : runBatchChunk c keccak ch with ⟨res, t1⟩
    cases res with
    | error e => simp [readGameDataBatchAux, hrun] at h
    | ok es =>
      rcases haux : readGameDataBatchAux c keccak rest with ⟨res2, t2⟩
      cases res2 with
      | error e2 => simp [readGameDataBatchAux, hrun, haux] at h
      | ok more =>
        simp [readGameDataBatchAux, hrun, haux] at h
        rw [← h.1]
        simp [List.flatten]
        rw [runBatchChunk_ok_keys c keccak ch es t1 hrun, ih more t2 haux]

theorem chunksOf_join (n : Nat) (hn : 0 < n) :
    ∀ l : List Nat, (chunksOf n l).flatten = l := by
  have key : ∀ L (l : List Nat), l.length ≤ L → (chunksOf n l).flatten = l := by
    intro L
    induction L with
    | zero =>
      intro l hl
      have hnil : l = [] := List.eq_nil_of_length_eq_zero (by omega)
      subst hnil
      rw [chunksOf.eq_def]
      simp
    | succ L ih =>
      intro l hl
      by_cases hnil : l = []
      · subst hnil
        rw [chunksOf.eq_def]
        simp
      · rw [chunksOf.eq_def, if_neg (by push_neg; exact ⟨by omega, hnil⟩)]
        have hlen : (l.drop n).length ≤ L := by
          have hpos : 0 < l.length := List.length_pos.mpr hnil
          simp [List.length_drop]
          omega
        simp only [List.flatten]
        rw [ih (l.drop n) hlen]
        exact List.take_append_drop n l
  exact fun l => key l.length l le_rfl

theorem clientBatchTwo_eval :
    readGameDataBatch clientBatchTwo kZero [1, 2, 3] 50
      = (.ok [(1, decodeGameData 0 0), (2, decodeGameData 1 0),
              (3, decodeGameData 0 0)], []) := by
  simp [readGameDataBatch, firstDedup, chunksOf, readGameDataBatchAux,
    runBatchChunk, chunkSlots, gameDataSlot, kZero, readExtsload,
    clientBatchTwo, assignChunk]

/-- C1 counterexample: batch-decoding ids 1, 2, 3 where only id 2 has a
non-zero creator word yields a map that still contains keys 1 and 3
with zero decoded creator addresses, not a map containing only key 2. -/
theorem c1_no_creator_filter_counterexample :
    (readGameDataBatch clientBatchTwo kZero [1, 2, 3] 50).1
      = .ok [(1, decodeGameData 0 0), (2, decodeGameData 1 0),
             (3, decodeGameData 0 0)] ∧
    (decodeGameData 1 0).gameCreator = 1 ∧
    (decodeGameData 0 0).gameCreator = 0 := by
  refine ⟨?_, ?_, ?_⟩
  · rw [clientBatchTwo_eval]
  · rw [gameCreator_eq]
    norm_num
  · rw [gameCreator_eq]
    norm_num

/-- C1 amended: the batched reader returns a mapping whose keys are
exactly the unique positive requested game ids in first-occurrence
order, with no filtering on the decoded creator address; ids whose
decoded creator is the zero address are included (callers filter them). -/
theorem c1_batch_keys_all_ids (c : RpcClient) (keccak : List Nat → Nat)
    (gameIds : List Nat) (batchSize : Nat) (hbs : 0 < batchSize)
    (entries : List (Nat × GameDataView)) (t : List (List Nat))
    (hok : readGameDataBatch c keccak gameIds batchSize = (.ok entries, t)) :
    entries.map Prod.fst = firstDedup (gameIds.filter (fun id => 0 < id)) := by
  have h := batchAux_ok_keys c keccak _ entries t hok
  rw [h, chunksOf_join batchSize hbs]

/-- C1 witness: the key list of the concrete three-id batch is the
deduplicated positive id list, zero-creator games included. -/
theorem c1_batch_keys_all_ids_witness :
    ([(1, decodeGameData 0 0), (2, decodeGameData 1 0), (3, decodeGameData 0 0)]
        : List (Nat × GameDataView)).map Prod.fst
      = firstDedup ([1, 2, 3].filter (fun id => 0 < id)) :=
  c1_batch_keys_all_ids clientBatchTwo kZero [1, 2, 3] 50 (by norm_num)
    [(1, decodeGameData 0 0), (2, decodeGameData 1 0), (3, decodeGameData 0 0)]
    [] clientBatchTwo_eval

end CardView
